import Mathlib

/-!
Verification of the QUIC distance probe (puffin-validator/solana-distance):
a shallow embedding of `src/main.rs` and `src/quic.rs`, followed by theorems
settling the frozen claims about the RTT sampler, the certificate builder,
the target-set construction and the aggregation of results.
-/

namespace SolanaDistance

/-- `u128::MAX`, the "unreachable" sentinel value returned by `ping`
(main.rs:109). -/
def u128Max : Nat := 2 ^ 128 - 1

/-- `LEADER_WINDOW = Duration::from_millis(4 * 400)` (main.rs:79), in
milliseconds.  `CONNECTION_TIMEOUT` (main.rs:80) is the same duration. -/
def leaderWindowMs : Nat := 4 * 400

/-- Rust `std::time::Duration`: a `u64` number of seconds plus a nanosecond
part below one second. -/
structure RustDuration where
  secs : Nat
  nanos : Nat
deriving DecidableEq

/-- The representation invariant of a Rust `Duration`: `secs` fits in `u64`
and `nanos` is a sub-second count. -/
def RustDuration.wf (d : RustDuration) : Prop :=
  d.secs < 2 ^ 64 ∧ d.nanos < 1000000000

/-- `Duration::as_micros`: `secs * 10^6 + nanos / 1000`, in integer
arithmetic, as used on `connection.rtt()` (main.rs:105). -/
def RustDuration.asMicros (d : RustDuration) : Nat :=
  d.secs * 1000000 + d.nanos / 1000

/-- The observable outcome of one connection attempt inside `ping`
(main.rs:102-111): `endpoint.connect` itself can return `Err` (a
configuration error, e.g. an address-family mismatch between the target and
the locally bound socket), the awaited handshake can fail or exceed
`CONNECTION_TIMEOUT`, or the connection completes and reports a round-trip
time. -/
inductive ConnectOutcome where
  | configError
  | timeoutOrFailed
  | connected (rtt : RustDuration)
deriving DecidableEq

/-- `ping` (main.rs:102-111).  `Except.error ()` models the
process-terminating `expect("Connection configuration error")` on
`endpoint.connect`; otherwise the measured RTT in microseconds is returned,
or `u128Max` when the attempt failed or timed out. -/
def ping (o : ConnectOutcome) : Except Unit Nat :=
  match o with
  | .configError => .error ()
  | .timeoutOrFailed => .ok u128Max
  | .connected d => .ok d.asMicros

/-- The value `ping` yields when it returns (used to state minimality):
`u128Max` for a failed or timed-out attempt, the measured microseconds
otherwise. -/
def pingVal (o : ConnectOutcome) : Nat :=
  match o with
  | .configError => u128Max
  | .timeoutOrFailed => u128Max
  | .connected d => d.asMicros

/-- The `for _ in 1..count` loop of `rtt` (main.rs:94-98), instrumented with
the number of `ping` calls it performs.  `os i` is the outcome of the `i`-th
connection attempt (0-based), `acc` the running `rtt_min`, `i` the index of
the next attempt and the last argument the number of remaining loop
iterations. -/
def rttRunAux (os : Nat → ConnectOutcome) (acc i : Nat) : Nat → Nat × Except Unit Nat
  | 0 => (0, .ok acc)
  | k + 1 =>
    match ping (os i) with
    | .error e => (1, .error e)
    | .ok v =>
      let r := rttRunAux os (min acc v) (i + 1) k
      (r.1 + 1, r.2)

/-- `rtt` (main.rs:86-100), instrumented: the first component counts the
connection attempts actually performed, the second is the returned minimum
(or the panic).  The first `ping` always runs; the loop then runs
`count - 1` more times (saturating: `1..count` is empty for `count = 0`). -/
def rttRun (os : Nat → ConnectOutcome) (count : Nat) : Nat × Except Unit Nat :=
  match ping (os 0) with
  | .error e => (1, .error e)
  | .ok v =>
    let r := rttRunAux os v 1 (count - 1)
    (r.1 + 1, r.2)

/-- The value returned by `rtt` (main.rs:86-100). -/
def rtt (os : Nat → ConnectOutcome) (count : Nat) : Except Unit Nat :=
  (rttRun os count).2

/-- The number of connection attempts `rtt` performs. -/
def rttAttempts (os : Nat → ConnectOutcome) (count : Nat) : Nat :=
  (rttRun os count).1

/-- main.rs:88-91: the delay before the first attempt.  `draw` is the value
produced by `rand::rng().random_range(Duration::ZERO..LEADER_WINDOW)`; when
`temporization` is false no delay at all is executed. -/
def temporizationDelay (temporization : Bool) (draw : Nat) : Nat :=
  if temporization then draw else 0

/-- The lower bound of the half-open range handed to `random_range`
(main.rs:89): `Duration::ZERO`, in milliseconds. -/
def randRangeLo : Nat := 0

/-- The upper bound of the half-open range handed to `random_range`
(main.rs:89): `LEADER_WINDOW`, in milliseconds. -/
def randRangeHi : Nat := leaderWindowMs

/-- main.rs:330: `let temporization = tpus.len() > 1;` — the aggregator
enables temporization exactly when more than one target is probed. -/
def temporizeFlag (numTargets : Nat) : Bool :=
  numTargets > 1

/-- The deadlines handed to `sleep_until` by the loop of `rtt`
(main.rs:92-98): `t` is initialized to attempt 1's start instant and is
advanced by `LEADER_WINDOW` before each later attempt; it never reads an
attempt's completion time.  `schedAux window t k` lists the deadlines of the
`k` remaining later attempts. -/
def schedAux (window : Nat) : Nat → Nat → List Nat
  | _, 0 => []
  | t, k + 1 => (t + window) :: schedAux window (t + window) k

/-- The scheduled start times of attempts `2..count` of `rtt`
(main.rs:92-98), given attempt 1's start instant `t0`. -/
def schedDeadlines (t0 window count : Nat) : List Nat :=
  schedAux window t0 (count - 1)

/-- The result of awaiting one sampling task (main.rs:350): either
`join.await` itself returned `Err` (the task failed) or it returned the
value computed by `rtt`. -/
inductive JoinResult where
  | taskFailed
  | value (rttVal : Nat)
deriving DecidableEq

/-- The accumulators mutated by the reduction loop of `main`
(main.rs:335-377): the weighted and unweighted distance sums, the success
count, the stake behind the successes, and the `ConnectionFailed` /
`ConnectionError` ledger entries (each an occurrence count plus affected
stake, as in `Errors::new`, main.rs:61-65). -/
structure Agg where
  distanceSumW : Nat
  distanceSum : Nat
  distanceCnt : Nat
  distanceStk : Nat
  connFailedCnt : Nat
  connFailedStk : Nat
  connErrorCnt : Nat
  connErrorStk : Nat
deriving DecidableEq

/-- The zero-initialized accumulators (main.rs:335-338) and empty ledger. -/
def Agg.init : Agg := ⟨0, 0, 0, 0, 0, 0, 0, 0⟩

/-- One step of the reduction loop (main.rs:340-377) for a joined target
`t = (stake, result)`, given the run's `total_stake`: a sentinel result
records `ConnectionFailed`, a task failure records `ConnectionError`, and a
measured result contributes `distance = rtt / 2`, weighted by stake only
when `total_stake > 0`. -/
def reduceStep (totalStake : Nat) (a : Agg) (t : Nat × JoinResult) : Agg :=
  match t.2 with
  | .taskFailed =>
    { a with connErrorCnt := a.connErrorCnt + 1, connErrorStk := a.connErrorStk + t.1 }
  | .value v =>
    if v = u128Max then
      { a with connFailedCnt := a.connFailedCnt + 1, connFailedStk := a.connFailedStk + t.1 }
    else
      let distance := v / 2
      let a1 :=
        if 0 < totalStake then
          { a with distanceSumW := a.distanceSumW + distance * t.1,
                   distanceStk := a.distanceStk + t.1 }
        else a
      { a1 with distanceSum := a1.distanceSum + distance,
                distanceCnt := a1.distanceCnt + 1 }

/-- The full reduction loop (main.rs:340-377) over the joined targets. -/
def reduceAll (totalStake : Nat) (targets : List (Nat × JoinResult)) : Agg :=
  targets.foldl (reduceStep totalStake) Agg.init

/-- What the statistics block does with the stake-weighted mean
(main.rs:379-386): printed, omitted, or a division-by-zero panic. -/
inductive WeightedOut where
  | omitted
  | reported (v : Nat)
  | divByZero
deriving DecidableEq

/-- main.rs:379-381: the simple mean `distance_sum / distance_cnt` is
printed only when `distance_cnt > 0`. -/
def simpleMeanOut (a : Agg) : Option Nat :=
  if 0 < a.distanceCnt then some (a.distanceSum / a.distanceCnt) else none

/-- main.rs:379-386: the stake-weighted mean `distance_sum_w / distance_stk`
is printed only when `distance_cnt > 0` and `total_stake > 0`; the `u128`
division panics when `distance_stk = 0`. -/
def weightedMeanOut (totalStake : Nat) (a : Agg) : WeightedOut :=
  if 0 < a.distanceCnt then
    if 0 < totalStake then
      if 0 < a.distanceStk then .reported (a.distanceSumW / a.distanceStk)
      else .divByZero
    else .omitted
  else .omitted

/-- Spec side (for comparison with the reduction loop): the targets with a
non-sentinel result, as `(stake, distance)` pairs with `distance = rtt / 2`. -/
def specSuccesses (targets : List (Nat × JoinResult)) : List (Nat × Nat) :=
  targets.filterMap (fun t =>
    match t.2 with
    | .taskFailed => none
    | .value v => if v = u128Max then none else some (t.1, v / 2))

/-- Spec side: `Σ (distance_i × stake_i)` over successful targets with
`stake_i > 0`, the numerator of the claimed stake-weighted mean. -/
def specWeightedNum (targets : List (Nat × JoinResult)) : Nat :=
  ((specSuccesses targets).filter (fun p => 0 < p.1)).foldl (fun s p => s + p.2 * p.1) 0

/-- Spec side: `Σ stake_i` over successful targets with `stake_i > 0`, the
denominator of the claimed stake-weighted mean. -/
def specWeightedDen (targets : List (Nat × JoinResult)) : Nat :=
  ((specSuccesses targets).filter (fun p => 0 < p.1)).foldl (fun s p => s + p.1) 0

/-- What processing one caller-supplied entry during target-set construction
can do to the run. -/
inductive AddrOutcome where
  | panicked
  | dropped
  | kept (ids : List String) (stake : Nat)
deriving DecidableEq

/-- main.rs:264-281, the stake-weighted branch, for one caller-supplied
socket address.  `dirEntry` is `rpc_addr_nodes.get(&sock_addr)`: the
directory contact infos whose `tpu_quic` equals the address, each paired
with the optional `activated_stake` of its vote account
(`rpc_pk_vote_accounts.get(&ci.pubkey)`).  The code first inserts an empty
TPU entry, then iterates `rpc_addr_nodes.get(&sock_addr).unwrap()` — a
`None` lookup terminates the process (`panicked`); with a `Some` list it
accumulates ids and stake over the contact infos that have a vote account,
and when the accumulated stake is 0 it records one `NotAStakedNode` error
and removes the entry (`dropped`). -/
def processCallerAddr (dirEntry : Option (List (String × Option Nat))) : AddrOutcome :=
  match dirEntry with
  | none => .panicked
  | some cis =>
    let ids := cis.filterMap (fun c => c.2.map (fun _ => c.1))
    let stake := cis.foldl (fun s c => s + c.2.getD 0) 0
    if stake = 0 then .dropped else .kept ids stake

/-- A structural resolution error recorded during target-set construction
(main.rs:52-58), with the affected stake passed to `Errors::new`. -/
inductive BuildError where
  | noContactInfo (stake : Nat)
  | noTPU (stake : Nat)
  | notAStakedNode
deriving DecidableEq

/-- main.rs:234-255, the stake-weighted branch, for one caller-supplied
pubkey: `va` is the vote account's `activated_stake` when the pubkey has a
vote account, `ci` is the contact-info lookup together with its optional
`tpu_quic` address.  Missing pieces record an error (the pubkey is excluded
from sampling, the loop continues); otherwise the target `(address, stake)`
is kept. -/
def processCallerPk (va : Option Nat) (ci : Option (Option Nat)) :
    Except BuildError (Nat × Nat) :=
  match va with
  | none => .error .notAStakedNode
  | some stake =>
    match ci with
    | none => .error (.noContactInfo stake)
    | some none => .error (.noTPU stake)
    | some (some addr) => .ok (addr, stake)

/-- quic.rs:72-78: the PKCS#8 v1 Ed25519 prefix prepended to the keypair's
32 secret bytes to form the private-key DER. -/
def pkcs8Prefix : List Nat :=
  [48, 46, 2, 1, 0, 48, 5, 6, 3, 43, 101, 112, 4, 34, 4, 32]

/-- quic.rs:81-89: the certificate DER bytes preceding the embedded public
key; the last three bytes `0x03 0x21 0x00` open the subjectPublicKey BIT
STRING whose content is the 32 public-key bytes. -/
def certDerHead : List Nat :=
  [48, 129, 246, 48, 129, 169, 160, 3, 2, 1, 2, 2, 8, 1, 1, 1, 1, 1, 1, 1, 1,
   48, 5, 6, 3, 43, 101, 112, 48, 22, 49, 20, 48, 18, 6, 3, 85, 4, 3, 12, 11,
   83, 111, 108, 97, 110, 97, 32, 110, 111, 100, 101, 48, 32, 23, 13, 55, 48,
   48, 49, 48, 49, 48, 48, 48, 48, 48, 48, 90, 24, 15, 52, 48, 57, 54, 48, 49,
   48, 49, 48, 48, 48, 48, 48, 48, 90, 48, 0, 48, 42, 48, 5, 6, 3, 43, 101,
   112, 3, 33, 0]

/-- quic.rs:91-100: the certificate DER bytes following the embedded public
key: the extensions, the signature AlgorithmIdentifier, and the signature
BIT STRING `0x03 0x41 0x00` whose 64 content bytes are all `0xff`. -/
def certDerTail : List Nat :=
  [163, 41, 48, 39, 48, 23, 6, 3, 85, 29, 17, 1, 1, 255, 4, 13, 48, 11, 130,
   9, 108, 111, 99, 97, 108, 104, 111, 115, 116, 48, 12, 6, 3, 85, 29, 19, 1,
   1, 255, 4, 2, 48, 0, 48, 5, 6, 3, 43, 101, 112, 3, 65, 0, 255, 255, 255,
   255, 255, 255, 255, 255, 255, 255, 255, 255, 255, 255, 255, 255, 255, 255,
   255, 255, 255, 255, 255, 255, 255, 255, 255, 255, 255, 255, 255, 255, 255,
   255, 255, 255, 255, 255, 255, 255, 255, 255, 255, 255, 255, 255, 255, 255,
   255, 255, 255, 255, 255, 255, 255, 255, 255, 255, 255, 255, 255, 255, 255,
   255]

/-- `new_x509_certificate` (quic.rs:71-106): from the keypair's secret bytes
and public-key bytes, build `(cert_der, key_pkcs8_der)` by splicing the
public key between the fixed head and tail, and prefixing the secret with
the PKCS#8 header. -/
def new_x509_certificate (secretBytes pubkeyBytes : List Nat) : List Nat × List Nat :=
  (certDerHead ++ pubkeyBytes ++ certDerTail, pkcs8Prefix ++ secretBytes)

/-- The public key embedded in a certificate produced by
`new_x509_certificate`: the 32 bytes spliced in at quic.rs:90, right after
the BIT STRING header closing `certDerHead`. -/
def certEmbeddedPublicKey (cert : List Nat) : List Nat :=
  (cert.drop certDerHead.length).take 32

/-- The signature carried by the certificate: the content of the trailing
`0x03 0x41 0x00` BIT STRING, i.e. the certificate's last 64 bytes. -/
def certSignature (cert : List Nat) : List Nat :=
  cert.drop (cert.length - 64)

/-- Little-endian byte decoding. -/
def leBytesToNat (bs : List Nat) : Nat :=
  bs.foldr (fun b acc => b + 256 * acc) 0

/-- Modelled from the spec: the spec asserts the emitted certificate is a
genuine self-signed Ed25519 certificate, but no signing or verification
code is in the repository (the DER is assembled from fixed bytes), so the
relevant fragment of Ed25519 verification is modelled here.  RFC 8032
§5.1.7 rejects any 64-byte signature whose second half, decoded
little-endian as the scalar S, is not below the group order
L = 2^252 + 27742317777372353535851937790883648493; canonicity of S is thus
a necessary condition for the signature to verify under any public key and
any message. -/
def ed25519GroupOrder : Nat :=
  2 ^ 252 + 27742317777372353535851937790883648493

/-- Modelled from the spec: necessary well-formedness of an Ed25519
signature — 64 bytes long with a canonical scalar S.  Any signature that is
valid for some key and message satisfies this. -/
def ed25519SignatureCanonical (sig : List Nat) : Prop :=
  sig.length = 64 ∧ leBytesToNat (sig.drop 32) < ed25519GroupOrder

instance (sig : List Nat) : Decidable (ed25519SignatureCanonical sig) :=
  inferInstanceAs (Decidable (sig.length = 64 ∧ leBytesToNat (sig.drop 32) < ed25519GroupOrder))

/-- Concrete attempt outcomes used by witnesses: attempt 0 times out,
attempt 1 measures 150 µs (150000 ns), later attempts measure 300 µs. -/
def osW1 : Nat → ConnectOutcome := fun i =>
  if i = 0 then ConnectOutcome.timeoutOrFailed
  else if i = 1 then ConnectOutcome.connected ⟨0, 150000⟩
  else ConnectOutcome.connected ⟨0, 300000⟩

/-- Concrete attempt outcomes for the simple-mean scenario: three attempts
measuring 200 µs, 150 µs and 300 µs. -/
def osW8 : Nat → ConnectOutcome := fun i =>
  if i = 0 then ConnectOutcome.connected ⟨0, 200000⟩
  else if i = 1 then ConnectOutcome.connected ⟨0, 150000⟩
  else ConnectOutcome.connected ⟨0, 300000⟩

/-- The value a joined sampling task delivers, defaulting to 0 on a panic
(used only to plug a concrete `rtt` run into a concrete reduction). -/
def exceptValD (e : Except Unit Nat) : Nat :=
  match e with
  | .ok v => v
  | .error _ => 0

/-- A concrete joined-target list: one zero-stake target whose task
returned the `rtt` of the three-attempt run over `osW8` (i.e. 150 µs). -/
def tsW8 : List (Nat × JoinResult) :=
  [(0, JoinResult.value (exceptValD (rtt osW8 3)))]

/-- A concrete joined-target list for the weighted mean: stake 5 at 100 µs
RTT, stake 0 at 50 µs RTT, a stake-3 target whose attempts all failed. -/
def tsW7 : List (Nat × JoinResult) :=
  [(5, JoinResult.value 100), (0, JoinResult.value 50), (3, JoinResult.value u128Max)]

theorem certDerHead_len : certDerHead.length = 100 := by decide

theorem certDerTail_len : certDerTail.length = 117 := by decide

theorem certDerTail_drop53 : certDerTail.drop 53 = List.replicate 64 255 := by decide

theorem replicate255_not_canonical : ¬ ed25519SignatureCanonical (List.replicate 64 255) := by
  decide

/-- C2: the certificate emitted by `new_x509_certificate` embeds a public
key whose bytes are bit-for-bit the keypair's public-key bytes: the 32
bytes of the subjectPublicKey BIT STRING are exactly `pubkeyBytes`. -/
theorem cert_embeds_pubkey (sk pk : List Nat) (hpk : pk.length = 32) :
    certEmbeddedPublicKey (new_x509_certificate sk pk).1 = pk := by
  show ((certDerHead ++ pk ++ certDerTail).drop certDerHead.length).take 32 = pk
  rw [List.append_assoc, List.drop_left, ← hpk, List.take_left]

/-- Witness for C2 at a concrete 32-byte public key. -/
theorem cert_embeds_pubkey_witness :
    certEmbeddedPublicKey (new_x509_certificate (List.replicate 32 1) (List.replicate 32 2)).1
      = List.replicate 32 2 :=
  cert_embeds_pubkey (List.replicate 32 1) (List.replicate 32 2) (by decide)

set_option maxRecDepth 8192 in
/-- C3 counterexample: for a concrete keypair, the signature carried by the
emitted certificate is not canonical, hence not a valid Ed25519 signature
by the private key (or any key) over the certificate body (or any
message). -/
theorem cert_signature_invalid_concrete :
    ¬ ed25519SignatureCanonical
      (certSignature (new_x509_certificate (List.replicate 32 1) (List.replicate 32 2)).1) := by
  decide

/-- C3 (amended): the signature field of the emitted certificate is the
fixed 64-byte `0xff` placeholder — identical for every keypair — and it is
not a valid Ed25519 signature (its scalar S is far above the group order),
so the certificate is self-signed in form only. -/
theorem cert_signature_placeholder (sk pk : List Nat) (hpk : pk.length = 32) :
    certSignature (new_x509_certificate sk pk).1 = List.replicate 64 255 ∧
    ¬ ed25519SignatureCanonical (certSignature (new_x509_certificate sk pk).1) := by
  have hsig : certSignature (new_x509_certificate sk pk).1 = List.replicate 64 255 := by
    show (certDerHead ++ pk ++ certDerTail).drop
        ((certDerHead ++ pk ++ certDerTail).length - 64) = List.replicate 64 255
    have hlen : (certDerHead ++ pk ++ certDerTail).length = 249 := by
      simp [List.length_append, certDerHead_len, certDerTail_len, hpk]
    rw [hlen]
    have hl2 : (certDerHead ++ pk).length = 132 := by
      simp [List.length_append, certDerHead_len, hpk]
    have hidx : (249 : Nat) - 64 = (certDerHead ++ pk).length + 53 := by
      rw [hl2]
    rw [hidx, List.drop_append, certDerTail_drop53]
  exact ⟨hsig, by rw [hsig]; exact replicate255_not_canonical⟩

/-- Witness for C3's amended theorem at a concrete keypair. -/
theorem cert_signature_placeholder_witness :
    certSignature (new_x509_certificate (List.replicate 32 3) (List.replicate 32 4)).1
      = List.replicate 64 255 ∧
    ¬ ed25519SignatureCanonical
      (certSignature (new_x509_certificate (List.replicate 32 3) (List.replicate 32 4)).1) :=
  cert_signature_placeholder (List.replicate 32 3) (List.replicate 32 4) (by decide)

/-- C4: evaluating the target-set construction at the failing input — a
caller-supplied socket address that is the `tpu_quic` address of no
directory node (`rpc_addr_nodes.get` returns `None`) — the loop terminates
the process via `Option::unwrap` instead of recording a `NotAStakedNode`
error and excluding the address. -/
theorem processCallerAddr_unknown_is_fatal :
    processCallerAddr none = AddrOutcome.panicked := rfl

/-- C5 counterexample: when `endpoint.connect` itself returns `Err` (a
connection configuration error, e.g. an IPv6 target with the IPv4-bound
local socket), `ping` terminates the process via `expect` instead of
returning the sentinel. -/
theorem ping_configError_is_fatal :
    ping ConnectOutcome.configError = Except.error () := rfl

/-- C5 (amended): whenever `endpoint.connect` succeeds in starting an
attempt, `ping` never terminates the process: it returns a value, and a
failed or timed-out handshake yields the `u128::MAX` sentinel. -/
theorem ping_nonfatal (o : ConnectOutcome) (h : o ≠ ConnectOutcome.configError) :
    ping o = .ok (pingVal o) ∧
    (o = ConnectOutcome.timeoutOrFailed → ping o = .ok u128Max) := by
  cases o with
  | configError => exact absurd rfl h
  | timeoutOrFailed => exact ⟨rfl, fun _ => rfl⟩
  | connected d => exact ⟨rfl, fun hc => by cases hc⟩

/-- Witness for C5's amended theorem at a timed-out attempt. -/
theorem ping_nonfatal_witness :
    ping ConnectOutcome.timeoutOrFailed = .ok (pingVal ConnectOutcome.timeoutOrFailed) ∧
    (ConnectOutcome.timeoutOrFailed = ConnectOutcome.timeoutOrFailed →
      ping ConnectOutcome.timeoutOrFailed = .ok u128Max) :=
  ping_nonfatal ConnectOutcome.timeoutOrFailed (by decide)

/-- C9: the aggregator's temporization flag is set exactly when more than
one target is probed; with the flag false the first attempt is not delayed;
with the flag true the delay is the value drawn by `random_range` over the
half-open range whose bounds are `Duration::ZERO` and `LEADER_WINDOW`
(0 and 1600 ms), so any drawn delay lies in `[0, 1600)` ms. -/
theorem temporization_spec (n draw : Nat) (hdraw : draw < randRangeHi) :
    (temporizeFlag n = true ↔ 1 < n) ∧
    temporizationDelay false draw = 0 ∧
    temporizationDelay true draw = draw ∧
    randRangeLo = 0 ∧ randRangeHi = 1600 ∧
    randRangeLo ≤ temporizationDelay true draw ∧
    temporizationDelay true draw < randRangeHi := by
  refine ⟨?_, rfl, rfl, rfl, rfl, Nat.zero_le _, ?_⟩
  · simp [temporizeFlag]
  · simpa [temporizationDelay] using hdraw

theorem ping_ok (o : ConnectOutcome) (h : o ≠ ConnectOutcome.configError) :
    ping o = .ok (pingVal o) := by
  cases o with
  | configError => exact absurd rfl h
  | timeoutOrFailed => rfl
  | connected d => rfl

theorem asMicros_lt_sentinel (d : RustDuration) (hd : d.wf) : d.asMicros < u128Max := by
  obtain ⟨h1, h2⟩ := hd
  have h3 : d.nanos / 1000 ≤ d.nanos := Nat.div_le_self _ _
  have e1 : (2 : Nat) ^ 64 = 18446744073709551616 := by norm_num
  have e2 : (2 : Nat) ^ 128 = 340282366920938463463374607431768211456 := by norm_num
  rw [e1] at h1
  have h4 : d.secs * 1000000 ≤ 18446744073709551615 * 1000000 :=
    Nat.mul_le_mul_right _ (by omega)
  show d.secs * 1000000 + d.nanos / 1000 < 2 ^ 128 - 1
  rw [e2]
  omega

theorem pingVal_le_sentinel (o : ConnectOutcome)
    (h : ∀ d, o = ConnectOutcome.connected d → d.wf) : pingVal o ≤ u128Max := by
  cases o with
  | configError => exact Nat.le_refl _
  | timeoutOrFailed => exact Nat.le_refl _
  | connected d => exact Nat.le_of_lt (asMicros_lt_sentinel d (h d rfl))

theorem rttRunAux_spec (os : Nat → ConnectOutcome) :
    ∀ (k acc i : Nat), (∀ j, i ≤ j → j < i + k → os j ≠ ConnectOutcome.configError) →
    ∃ m, rttRunAux os acc i k = (k, .ok m) ∧
      (m = acc ∨ ∃ j, i ≤ j ∧ j < i + k ∧ m = pingVal (os j)) ∧
      m ≤ acc ∧
      ∀ j, i ≤ j → j < i + k → m ≤ pingVal (os j) := by
  intro k
  induction k with
  | zero =>
    intro acc i _
    exact ⟨acc, rfl, Or.inl rfl, Nat.le_refl _, fun j hj1 hj2 => absurd hj2 (by omega)⟩
  | succ k ih =>
    intro acc i h
    have hi : os i ≠ ConnectOutcome.configError := h i (Nat.le_refl i) (by omega)
    have hping := ping_ok (os i) hi
    obtain ⟨m, hm1, hm2, hm3, hm4⟩ :=
      ih (min acc (pingVal (os i))) (i + 1) (fun j hj1 hj2 => h j (by omega) (by omega))
    refine ⟨m, ?_, ?_, ?_, ?_⟩
    · simp only [rttRunAux, hping, hm1]
    · rcases hm2 with h' | ⟨j, hj1, hj2, hj3⟩
      · rcases Nat.le_total acc (pingVal (os i)) with hle | hle
        · exact Or.inl (by rw [h']; exact Nat.min_eq_left hle)
        · exact Or.inr ⟨i, Nat.le_refl i, by omega, by rw [h']; exact Nat.min_eq_right hle⟩
      · exact Or.inr ⟨j, by omega, by omega, hj3⟩
    · exact Nat.le_trans hm3 (Nat.min_le_left _ _)
    · intro j hj1 hj2
      rcases Nat.eq_or_lt_of_le hj1 with he | hlt
      · rw [← he]
        exact Nat.le_trans hm3 (Nat.min_le_right _ _)
      · exact hm4 j (by omega) (by omega)

theorem rttRun_eq (os : Nat → ConnectOutcome) (count v k m : Nat)
    (hp : ping (os 0) = .ok v) (hr : rttRunAux os v 1 (count - 1) = (k, .ok m)) :
    rttRun os count = (k + 1, .ok m) := by
  simp only [rttRun, hp, hr]

/-- C1: for `count = N ≥ 1`, when every one of the N attempts actually runs
(no `endpoint.connect` configuration error) and the measured durations are
well-formed Rust `Duration`s, `rtt` performs exactly N connection attempts
and returns a value `m` that is the minimum over the attempts of the
per-attempt value (measured microseconds, or the sentinel for a failed or
timed-out attempt); `m` is the `u128::MAX` sentinel exactly when all N
attempts failed or timed out. -/
theorem rtt_returns_min (os : Nat → ConnectOutcome) (N : Nat) (hN : 1 ≤ N)
    (hok : ∀ i, i < N → os i ≠ ConnectOutcome.configError)
    (hwf : ∀ i, i < N → ∀ d, os i = ConnectOutcome.connected d → d.wf) :
    rttAttempts os N = N ∧
    ∃ m, rtt os N = .ok m ∧
      (∃ i, i < N ∧ m = pingVal (os i)) ∧
      (∀ i, i < N → m ≤ pingVal (os i)) ∧
      (m = u128Max ↔ ∀ i, i < N → os i = ConnectOutcome.timeoutOrFailed) := by
  have h0 : os 0 ≠ ConnectOutcome.configError := hok 0 (by omega)
  have hp0 := ping_ok (os 0) h0
  obtain ⟨m, hm1, hm2, hm3, hm4⟩ :=
    rttRunAux_spec os (N - 1) (pingVal (os 0)) 1 (fun j hj1 hj2 => hok j (by omega))
  have hrun := rttRun_eq os N (pingVal (os 0)) (N - 1) m hp0 hm1
  constructor
  · show (rttRun os N).1 = N
    rw [hrun]
    omega
  · refine ⟨m, ?_, ?_, ?_, ?_⟩
    · show (rttRun os N).2 = .ok m
      rw [hrun]
    · rcases hm2 with h' | ⟨j, hj1, hj2, hj3⟩
      · exact ⟨0, by omega, h'⟩
      · exact ⟨j, by omega, hj3⟩
    · intro i hi
      rcases Nat.eq_zero_or_pos i with h' | h'
      · rw [h']; exact hm3
      · exact hm4 i (by omega) (by omega)
    · constructor
      · intro hmax i hi
        have hle : m ≤ pingVal (os i) := by
          rcases Nat.eq_zero_or_pos i with h' | h'
          · rw [h']; exact hm3
          · exact hm4 i (by omega) (by omega)
        rw [hmax] at hle
        cases hcase : os i with
        | configError => exact absurd hcase (hok i hi)
        | timeoutOrFailed => rfl
        | connected d =>
          have hlt := asMicros_lt_sentinel d (hwf i hi d hcase)
          rw [hcase] at hle
          exact absurd hle (by simp only [pingVal]; omega)
      · intro hall
        rcases hm2 with h' | ⟨j, hj1, hj2, hj3⟩
        · rw [h', hall 0 (by omega)]; rfl
        · rw [hj3, hall j (by omega)]; rfl

/-- Witness for C1: two attempts, the first timing out, the second
measuring 150 µs; `rtt` runs both attempts and returns 150. -/
theorem rtt_returns_min_witness :
    rttAttempts osW1 2 = 2 ∧
    ∃ m, rtt osW1 2 = .ok m ∧
      (∃ i, i < 2 ∧ m = pingVal (osW1 i)) ∧
      (∀ i, i < 2 → m ≤ pingVal (osW1 i)) ∧
      (m = u128Max ↔ ∀ i, i < 2 → osW1 i = ConnectOutcome.timeoutOrFailed) := by
  refine rtt_returns_min osW1 2 (by decide) (by decide) ?_
  intro i hi d hd
  match i, hi with
  | 0, _ => exact absurd hd (by simp [osW1])
  | 1, _ =>
    have : ConnectOutcome.connected ⟨0, 150000⟩ = ConnectOutcome.connected d := hd
    cases this
    exact ⟨by norm_num, by norm_num⟩

/-- C10: `rtt` always performs `max(count, 1)` connection attempts, not
`count`: the first `ping` runs unconditionally and the loop adds
`count - 1` (saturating) more; in particular `count = 0` still performs one
attempt and returns its result. -/
theorem rtt_count_zero_one_attempt (os : Nat → ConnectOutcome) (count : Nat)
    (h : ∀ i, i < max count 1 → os i ≠ ConnectOutcome.configError) :
    rttAttempts os count = max count 1 ∧ rtt os 0 = ping (os 0) := by
  constructor
  · have h0 : os 0 ≠ ConnectOutcome.configError := h 0 (by omega)
    have hp0 := ping_ok (os 0) h0
    obtain ⟨m, hm1, _, _, _⟩ :=
      rttRunAux_spec os (count - 1) (pingVal (os 0)) 1
        (fun j hj1 hj2 => h j (by omega))
    have hrun := rttRun_eq os count (pingVal (os 0)) (count - 1) m hp0 hm1
    show (rttRun os count).1 = max count 1
    rw [hrun]
    omega
  · show (rttRun os 0).2 = ping (os 0)
    cases hp : ping (os 0) with
    | error e => simp only [rttRun, hp]
    | ok v => simp only [rttRun, hp, rttRunAux]

/-- Witness for C10 at `count = 0`: exactly one attempt runs and its result
is returned. -/
theorem rtt_count_zero_one_attempt_witness :
    rttAttempts osW1 0 = max 0 1 ∧ rtt osW1 0 = ping (osW1 0) :=
  rtt_count_zero_one_attempt osW1 0 (by decide)

theorem schedAux_get (window : Nat) :
    ∀ (k t j : Nat), j < k →
      (schedAux window t k)[j]? = some (t + (j + 1) * window) := by
  intro k
  induction k with
  | zero => intro t j hj; omega
  | succ k ih =>
    intro t j hj
    cases j with
    | zero => simp [schedAux]
    | succ j =>
      have := ih (t + window) j (by omega)
      simp only [schedAux, List.getElem?_cons_succ, this]
      have harith : t + window + (j + 1) * window = t + (j + 1 + 1) * window := by
        rw [Nat.succ_mul (j + 1) window]
        omega
      rw [harith]

/-- C6: the loop of `rtt` schedules attempt `i` (for `2 ≤ i ≤ N`) at the
absolute instant `t0 + (i-1) × LEADER_WINDOW`, where `t0` is attempt 1's
start instant and `LEADER_WINDOW` is 1600 ms; the deadlines are computed
from `t0` alone (the schedule never reads an attempt's completion time), so
the cadence does not drift. -/
theorem sched_drift_free (t0 N i : Nat) (hN : 2 ≤ N) (hi : 2 ≤ i) (hiN : i ≤ N) :
    leaderWindowMs = 1600 ∧
    (schedDeadlines t0 leaderWindowMs N)[i - 2]? = some (t0 + (i - 1) * leaderWindowMs) := by
  refine ⟨rfl, ?_⟩
  have h := schedAux_get leaderWindowMs (N - 1) t0 (i - 2) (by omega)
  have harith : i - 2 + 1 = i - 1 := by omega
  rw [harith] at h
  exact h

/-- Witness for C6: three attempts starting at `t0 = 0`; attempt 3 is
scheduled at `2 × 1600` ms. -/
theorem sched_drift_free_witness :
    leaderWindowMs = 1600 ∧
    (schedDeadlines 0 leaderWindowMs 3)[3 - 2]? = some (0 + (3 - 1) * leaderWindowMs) :=
  sched_drift_free 0 3 3 (by decide) (by decide) (by decide)

/-- Witness for C9 with two targets and a drawn delay of 7 ms. -/
theorem temporization_spec_witness :
    (temporizeFlag 2 = true ↔ 1 < 2) ∧
    temporizationDelay false 7 = 0 ∧
    temporizationDelay true 7 = 7 ∧
    randRangeLo = 0 ∧ randRangeHi = 1600 ∧
    randRangeLo ≤ temporizationDelay true 7 ∧
    temporizationDelay true 7 < randRangeHi :=
  temporization_spec 2 7 (by decide)

theorem foldl_add_shift {α : Type} (f : α → Nat) :
    ∀ (l : List α) (s : Nat),
      l.foldl (fun a x => a + f x) s = s + l.foldl (fun a x => a + f x) 0 := by
  intro l
  induction l with
  | nil => intro s; simp
  | cons x xs ih =>
    intro s
    simp only [List.foldl_cons]
    rw [ih (s + f x), ih (0 + f x)]
    omega

theorem foldl_filter_pos (f : Nat × Nat → Nat) (hf : ∀ p : Nat × Nat, p.1 = 0 → f p = 0) :
    ∀ l : List (Nat × Nat),
      (l.filter (fun p => 0 < p.1)).foldl (fun s p => s + f p) 0 =
      l.foldl (fun s p => s + f p) 0 := by
  intro l
  induction l with
  | nil => rfl
  | cons p ps ih =>
    by_cases hp : 0 < p.1
    · rw [List.filter_cons_of_pos (by simpa using hp)]
      simp only [List.foldl_cons]
      rw [foldl_add_shift f (ps.filter fun q => decide (0 < q.1)) (0 + f p),
        foldl_add_shift f ps (0 + f p), ih]
    · rw [List.filter_cons_of_neg (by simpa using hp)]
      simp only [List.foldl_cons]
      rw [ih, foldl_add_shift f ps (0 + f p)]
      have hz : f p = 0 := hf p (by omega)
      rw [hz]
      simp

theorem specSuccesses_cons_taskFailed (st : Nat) (ts : List (Nat × JoinResult)) :
    specSuccesses ((st, JoinResult.taskFailed) :: ts) = specSuccesses ts := by
  simp [specSuccesses, List.filterMap_cons]

theorem specSuccesses_cons_sentinel (st : Nat) (ts : List (Nat × JoinResult)) :
    specSuccesses ((st, JoinResult.value u128Max) :: ts) = specSuccesses ts := by
  simp [specSuccesses, List.filterMap_cons]

theorem specSuccesses_cons_value (st v : Nat) (hv : v ≠ u128Max)
    (ts : List (Nat × JoinResult)) :
    specSuccesses ((st, JoinResult.value v) :: ts) = (st, v / 2) :: specSuccesses ts := by
  simp [specSuccesses, List.filterMap_cons, hv]

theorem reduce_weighted_fields (totalStake : Nat) (hT : 0 < totalStake) :
    ∀ (ts : List (Nat × JoinResult)) (a : Agg),
      (ts.foldl (reduceStep totalStake) a).distanceSumW
        = a.distanceSumW + (specSuccesses ts).foldl (fun s p => s + p.2 * p.1) 0 ∧
      (ts.foldl (reduceStep totalStake) a).distanceStk
        = a.distanceStk + (specSuccesses ts).foldl (fun s p => s + p.1) 0 := by
  intro ts
  induction ts with
  | nil => intro a; simp [specSuccesses]
  | cons t ts ih =>
    intro a
    obtain ⟨st, r⟩ := t
    cases r with
    | taskFailed =>
      simp only [List.foldl_cons, specSuccesses_cons_taskFailed]
      exact ih _
    | value v =>
      by_cases hv : v = u128Max
      · rw [hv]
        simp only [List.foldl_cons, specSuccesses_cons_sentinel]
        have := ih (reduceStep totalStake a (st, JoinResult.value u128Max))
        simpa [reduceStep] using this
      · simp only [List.foldl_cons, specSuccesses_cons_value st v hv]
        obtain ⟨ih1, ih2⟩ := ih (reduceStep totalStake a (st, JoinResult.value v))
        have hstep1 : (reduceStep totalStake a (st, JoinResult.value v)).distanceSumW
            = a.distanceSumW + v / 2 * st := by
          simp [reduceStep, hv, hT]
        have hstep2 : (reduceStep totalStake a (st, JoinResult.value v)).distanceStk
            = a.distanceStk + st := by
          simp [reduceStep, hv, hT]
        rw [ih1, ih2, hstep1, hstep2,
          foldl_add_shift (fun p : Nat × Nat => p.2 * p.1) (specSuccesses ts) (0 + v / 2 * st),
          foldl_add_shift (fun p : Nat × Nat => p.1) (specSuccesses ts) (0 + st)]
        omega

theorem reduce_sum_cnt_fields (totalStake : Nat) :
    ∀ (ts : List (Nat × JoinResult)) (a : Agg),
      (ts.foldl (reduceStep totalStake) a).distanceSum
        = a.distanceSum + (specSuccesses ts).foldl (fun s p => s + p.2) 0 ∧
      (ts.foldl (reduceStep totalStake) a).distanceCnt
        = a.distanceCnt + (specSuccesses ts).length := by
  intro ts
  induction ts with
  | nil => intro a; simp [specSuccesses]
  | cons t ts ih =>
    intro a
    obtain ⟨st, r⟩ := t
    cases r with
    | taskFailed =>
      simp only [List.foldl_cons, specSuccesses_cons_taskFailed]
      exact ih _
    | value v =>
      by_cases hv : v = u128Max
      · rw [hv]
        simp only [List.foldl_cons, specSuccesses_cons_sentinel]
        have := ih (reduceStep totalStake a (st, JoinResult.value u128Max))
        simpa [reduceStep] using this
      · simp only [List.foldl_cons, specSuccesses_cons_value st v hv, List.length_cons]
        obtain ⟨ih1, ih2⟩ := ih (reduceStep totalStake a (st, JoinResult.value v))
        by_cases hT : 0 < totalStake
        · have hstep1 : (reduceStep totalStake a (st, JoinResult.value v)).distanceSum
              = a.distanceSum + v / 2 := by simp [reduceStep, hv, hT]
          have hstep2 : (reduceStep totalStake a (st, JoinResult.value v)).distanceCnt
              = a.distanceCnt + 1 := by simp [reduceStep, hv, hT]
          rw [ih1, ih2, hstep1, hstep2,
            foldl_add_shift (fun p : Nat × Nat => p.2) (specSuccesses ts) (0 + v / 2)]
          omega
        · have hstep1 : (reduceStep totalStake a (st, JoinResult.value v)).distanceSum
              = a.distanceSum + v / 2 := by simp [reduceStep, hv, hT]
          have hstep2 : (reduceStep totalStake a (st, JoinResult.value v)).distanceCnt
              = a.distanceCnt + 1 := by simp [reduceStep, hv, hT]
          rw [ih1, ih2, hstep1, hstep2,
            foldl_add_shift (fun p : Nat × Nat => p.2) (specSuccesses ts) (0 + v / 2)]
          omega

/-- C7: after reducing all joined targets, (a) when `total_stake = 0` the
stake-weighted statistic is omitted from the output, and (b) whenever a
stake-weighted mean `v` is reported, `total_stake > 0` and `v` equals
`Σ (distance_i × stake_i) / Σ stake_i` taken over the targets with a
non-sentinel result and positive stake (the `u128` integer division of the
code). -/
theorem weighted_mean_spec (totalStake : Nat) (ts : List (Nat × JoinResult)) :
    (totalStake = 0 → weightedMeanOut totalStake (reduceAll totalStake ts) = .omitted) ∧
    (∀ v, weightedMeanOut totalStake (reduceAll totalStake ts) = .reported v →
      0 < totalStake ∧ v = specWeightedNum ts / specWeightedDen ts) := by
  constructor
  · intro h0
    unfold weightedMeanOut
    rw [h0]
    simp
  · intro v hv
    unfold weightedMeanOut at hv
    by_cases hc : 0 < (reduceAll totalStake ts).distanceCnt
    · rw [if_pos hc] at hv
      by_cases hT : 0 < totalStake
      · rw [if_pos hT] at hv
        by_cases hs : 0 < (reduceAll totalStake ts).distanceStk
        · rw [if_pos hs] at hv
          refine ⟨hT, ?_⟩
          cases hv
          obtain ⟨hw, hk⟩ := reduce_weighted_fields totalStake hT ts Agg.init
          have hw0 : (reduceAll totalStake ts).distanceSumW
              = (specSuccesses ts).foldl (fun s p => s + p.2 * p.1) 0 := by
            unfold reduceAll
            rw [hw]
            exact Nat.zero_add _
          have hk0 : (reduceAll totalStake ts).distanceStk
              = (specSuccesses ts).foldl (fun s p => s + p.1) 0 := by
            unfold reduceAll
            rw [hk]
            exact Nat.zero_add _
          rw [hw0, hk0]
          unfold specWeightedNum specWeightedDen
          rw [foldl_filter_pos (fun p : Nat × Nat => p.2 * p.1)
              (fun p hp => by show p.2 * p.1 = 0; rw [hp, Nat.mul_zero]),
            foldl_filter_pos (fun p : Nat × Nat => p.1) (fun p hp => hp)]
        · rw [if_neg hs] at hv
          cases hv
      · rw [if_neg hT] at hv
        cases hv
    · rw [if_neg hc] at hv
      cases hv

/-- Witness for C7: with `total_stake = 0` the weighted statistic is
omitted; with `total_stake = 8` over `tsW7` (stake 5 at distance 50, stake
0 at distance 25, stake 3 unreachable) the reported weighted mean is
`(50 × 5) / 5 = 50`. -/
theorem weighted_mean_spec_witness :
    weightedMeanOut 0 (reduceAll 0 tsW7) = .omitted ∧
    (0 < 8 ∧ 50 = specWeightedNum tsW7 / specWeightedDen tsW7) := by
  constructor
  · exact (weighted_mean_spec 0 tsW7).1 rfl
  · exact (weighted_mean_spec 8 tsW7).2 50 (by decide)

/-- C8: every target with a non-sentinel result `v` contributes the
distance `v / 2`, and when at least one target succeeded the reported
simple mean is the integer mean of those halved values over exactly the
successful targets. -/
theorem simple_mean_spec (totalStake : Nat) (ts : List (Nat × JoinResult))
    (hne : specSuccesses ts ≠ []) :
    (∀ s v, (s, JoinResult.value v) ∈ ts → v ≠ u128Max → (s, v / 2) ∈ specSuccesses ts) ∧
    simpleMeanOut (reduceAll totalStake ts)
      = some ((specSuccesses ts).foldl (fun s p => s + p.2) 0 / (specSuccesses ts).length) := by
  constructor
  · intro s v hmem hv
    unfold specSuccesses
    rw [List.mem_filterMap]
    exact ⟨(s, JoinResult.value v), hmem, by simp [hv]⟩
  · obtain ⟨hsum, hcnt⟩ := reduce_sum_cnt_fields totalStake ts Agg.init
    unfold simpleMeanOut reduceAll
    rw [hsum, hcnt]
    have hpos : 0 < (specSuccesses ts).length := List.length_pos.mpr hne
    show (if 0 < (0 : Nat) + (specSuccesses ts).length then _ else _) = _
    rw [if_pos (by omega)]
    simp [Agg.init]

/-- Witness for C8 (Scenario A): a single target whose three attempts
measured 200 µs, 150 µs and 300 µs, so its task returned the minimum 150;
its distance is 75 µs and the simple mean is 75 µs. -/
theorem simple_mean_spec_witness :
    ((∀ s v, (s, JoinResult.value v) ∈ tsW8 → v ≠ u128Max → (s, v / 2) ∈ specSuccesses tsW8) ∧
      simpleMeanOut (reduceAll 0 tsW8)
        = some ((specSuccesses tsW8).foldl (fun s p => s + p.2) 0 / (specSuccesses tsW8).length)) ∧
    rtt osW8 3 = .ok 150 ∧
    simpleMeanOut (reduceAll 0 tsW8) = some 75 := by
  refine ⟨simple_mean_spec 0 tsW8 (by decide), rfl, by decide⟩

end SolanaDistance
